import Mathlib

/-!
Verification of the obesity-predictor preprocessing / model-comparison core.

Shallow embedding of:
  * `obesity_predictor/core/preprocessing/base_preprocessor.py`
  * `obesity_predictor/core/preprocessing/train_preprocessor.py`
  * `obesity_predictor/core/preprocessing/inference_preprocessor.py`
  * `obesity_predictor/core/model/evaluator.py`
  * `obesity_predictor/core/model/comparator.py`

Machine floats are modelled by exact rationals; the standard-deviation square
root is modelled by a rational approximation (no theorem below depends on its
numeric value).  Pandas tables are modelled as ordered association lists of
named, typed columns.
-/

/-- Python exception values observable on the modelled code paths.  The first
five constructors are the builtin exception classes the code can actually
raise.  The last three name the error kinds that the specification's error
taxonomy postulates; the repository defines no such exception classes and
never raises them, and they are present only so that statements about them
can be expressed (and refuted). -/
inductive PyError where
  | keyError (key : String)
  | valueError (msg : String)
  | typeError (msg : String)
  | runtimeError (msg : String)
  | attributeError (msg : String)
  | schemaError
  | notFittedError
  | emptyTrainerSetError
  deriving DecidableEq, Repr

/-- One pandas column: numeric dtype (`select_dtypes(include="number")`)
or non-numeric dtype (object / categorical).  `none` models a NaN entry in a
non-numeric column (for example out-of-range output of `pd.cut`). -/
inductive ColData where
  | num (vs : List ℚ)
  | cat (vs : List (Option String))
  deriving DecidableEq, Repr

def ColData.isNum : ColData → Bool
  | .num _ => true
  | .cat _ => false

/-- A pandas DataFrame: ordered list of named columns. -/
abbrev DataFrame := List (String × ColData)

/-- `df[n]`: first column named `n`, if any. -/
def lookupCol : DataFrame → String → Option ColData
  | [], _ => none
  | (m, c) :: t, n => if m = n then some c else lookupCol t n

/-- `df[n] = c`: overwrite the column in place when it exists (keeping its
position), else append it at the end — pandas column assignment. -/
def setCol : DataFrame → String → ColData → DataFrame
  | [], n, c => [(n, c)]
  | (m, d) :: t, n, c => if m = n then (m, c) :: t else (m, d) :: setCol t n c

/-- The column schema of a table: names with their numeric/non-numeric dtype,
in column order. -/
def schema (df : DataFrame) : List (String × Bool) :=
  df.map fun p => (p.1, p.2.isNum)

/-- Column names of a table, in order. -/
abbrev dfNames (df : DataFrame) : List String := df.map Prod.fst

theorem dfNames_cons (a : String × ColData) (t : DataFrame) :
    dfNames (a :: t) = a.1 :: dfNames t := rfl

/-- Whether the table's column names are pairwise distinct (pandas tables
read from a CSV header have distinct names). -/
abbrev nodupNames (df : DataFrame) : Prop := (dfNames df).Nodup

/-- `series ** 2`, elementwise; a TypeError on a non-numeric column. -/
def colPow2 : ColData → Except PyError (List ℚ)
  | .num vs => .ok (vs.map fun x => x ^ 2)
  | .cat _ => .error (.typeError "unsupported operand type for pow")

/-- `series / other`, elementwise; a TypeError on a non-numeric column.
Rational division by zero yields 0 here; the float code path would produce
inf instead, and no claim exercises a zero height. -/
def colDivide : ColData → List ℚ → Except PyError (List ℚ)
  | .num vs, ws => .ok (List.zipWith (fun a b => a / b) vs ws)
  | .cat _, _ => .error (.typeError "unsupported operand type for truediv")

/-- `pd.cut(x, bins=[0, 18, 30, 50, 100], labels=["Teen", "Young", "Adult",
"Senior"])` on one value: right-closed bins, NaN outside the range. -/
def cutAge (x : ℚ) : Option String :=
  if 0 < x ∧ x ≤ 18 then some "Teen"
  else if 18 < x ∧ x ≤ 30 then some "Young"
  else if 30 < x ∧ x ≤ 50 then some "Adult"
  else if 50 < x ∧ x ≤ 100 then some "Senior"
  else none

/-- `pd.cut` over a column; a TypeError on non-numeric input. -/
def colCut : ColData → Except PyError (List (Option String))
  | .num vs => .ok (vs.map cutAge)
  | .cat _ => .error (.typeError "cut on non-numeric data")

/-- The two in-place statements that appear verbatim in
`TrainPreprocessor.fit`, `TrainPreprocessor.transform` and
`InferencePreprocessor.transform`:

    data["BMI"] = data["Weight"] / (data["Height"] ** 2)
    data["Age_Group"] = pd.cut(data["Age"], bins=[0, 18, 30, 50, 100], ...)

The returned table is the caller's table after the two assignments; a
missing column raises a KeyError on the first lookup that fails, in
left-to-right evaluation order. -/
def deriveFeatures (df : DataFrame) : Except PyError DataFrame :=
  match lookupCol df "Weight" with
  | none => .error (.keyError "Weight")
  | some w =>
    match lookupCol df "Height" with
    | none => .error (.keyError "Height")
    | some h =>
      match colPow2 h with
      | .error e => .error e
      | .ok h2 =>
        match colDivide w h2 with
        | .error e => .error e
        | .ok bmi =>
          let df1 := setCol df "BMI" (.num bmi)
          match lookupCol df1 "Age" with
          | none => .error (.keyError "Age")
          | some a =>
            match colCut a with
            | .error e => .error e
            | .ok ag => .ok (setCol df1 "Age_Group" (.cat ag))

/-- `settings.target_column` (default value of the `TARGET_COLUMN`
environment variable). -/
def targetColumn : String := "NObeyesdad"

/-- Fitted per-column state of sklearn's `StandardScaler`. -/
structure FittedScaler where
  mean : ℚ
  scale : ℚ
  deriving DecidableEq, Repr

def listSum (l : List ℚ) : ℚ := l.foldr (fun a b => a + b) 0

def listMean (l : List ℚ) : ℚ := listSum l / (l.length : ℚ)

/-- Population variance (ddof = 0), as `StandardScaler` uses. -/
def listVar (l : List ℚ) : ℚ :=
  listSum (l.map fun x => (x - listMean l) ^ 2) / (l.length : ℚ)

/-- Rational stand-in for the float square root: `sqrt (n / d)` is
approximated by `Nat.sqrt (n * d) / d`.  No theorem below depends on the
numeric value of a scale. -/
def ratSqrt (x : ℚ) : ℚ := (Nat.sqrt (x.num.toNat * x.den) : ℚ) / (x.den : ℚ)

/-- `StandardScaler.fit` on one column: store the mean and the standard
deviation; a zero variance is mapped to scale 1
(sklearn `_handle_zeros_in_scale`). -/
def fitScaler (vs : List ℚ) : FittedScaler :=
  { mean := listMean vs
    scale := if listVar vs = 0 then 1 else ratSqrt (listVar vs) }

/-- Code-point lexicographic comparison of strings (the order `np.unique`
sorts object arrays in). -/
def charListLtB : List Char → List Char → Bool
  | [], [] => false
  | [], _ :: _ => true
  | _ :: _, [] => false
  | a :: as, b :: bs =>
    if a.toNat < b.toNat then true
    else if b.toNat < a.toNat then false
    else charListLtB as bs

def strLtB (a b : String) : Bool := charListLtB a.data b.data

/-- Order on category values: strings lexicographically, NaN last. -/
def catLtB : Option String → Option String → Bool
  | none, _ => false
  | some _, none => true
  | some a, some b => strLtB a b

/-- Insert into a sorted duplicate-free list of category values. -/
def insertCat (x : Option String) : List (Option String) → List (Option String)
  | [] => [x]
  | y :: ys =>
    if x = y then y :: ys
    else if catLtB x y then x :: y :: ys
    else y :: insertCat x ys

/-- `np.unique` over a column's values: the distinct observed values in
sorted order — the vocabulary `OneHotEncoder.fit` stores for one column. -/
def sortedCats (vs : List (Option String)) : List (Option String) :=
  vs.foldl (fun acc v => insertCat v acc) []

/-- The fitted `ColumnTransformer`: scaling state per numeric column (in
fit-time column order) and vocabulary per categorical column (in fit-time
column order). -/
structure FittedPipeline where
  nums : List (String × FittedScaler)
  cats : List (String × List (Option String))
  deriving DecidableEq, Repr

/-- Values of a numeric column selected while fitting; the column always
exists there because the column lists come from the same table. -/
def numValuesIn (df : DataFrame) (c : String) : List ℚ :=
  match lookupCol df c with
  | some (.num vs) => vs
  | _ => []

def catValuesIn (df : DataFrame) (c : String) : List (Option String) :=
  match lookupCol df c with
  | some (.cat vs) => vs
  | _ => []

/-- `str(category)` as used in `get_feature_names_out`; `str(np.nan)` is
`"nan"`. -/
def catFeatureName : Option String → String
  | some s => s
  | none => "nan"

/-- `OneHotEncoder.get_feature_names_out(categorical_cols)`: one
`"col_category"` name per stored category, categories in stored vocabulary
order, columns in stored column order. -/
def oneHotNames (cats : List (String × List (Option String))) : List String :=
  cats.flatMap fun cv => cv.2.map fun cat => cv.1 ++ "_" ++ catFeatureName cat

/-- `select_dtypes(include="number").columns` minus the target column
(`numeric_cols.remove(target)` guarded by membership). -/
def numericColsOf (df : DataFrame) : List String :=
  ((df.filter fun p => p.2.isNum).map Prod.fst).erase targetColumn

/-- `select_dtypes(exclude="number").columns` minus the target column. -/
def categoricalColsOf (df : DataFrame) : List String :=
  ((df.filter fun p => !p.2.isNum).map Prod.fst).erase targetColumn

/-- `ColumnTransformer([...StandardScaler..., ...OneHotEncoder...]).fit` on
the derived table. -/
def fitPipeline (df2 : DataFrame) : FittedPipeline :=
  { nums := (numericColsOf df2).map fun c => (c, fitScaler (numValuesIn df2 c))
    cats := (categoricalColsOf df2).map fun c => (c, sortedCats (catValuesIn df2 c)) }

/-- State of a `TrainPreprocessor` object. -/
structure TrainPreprocessor where
  fitted : Bool
  pipeline : Option FittedPipeline
  feature_names : Option (List String)
  deriving DecidableEq, Repr

/-- `TrainPreprocessor()`: fresh, unfitted. -/
def TrainPreprocessor.new : TrainPreprocessor :=
  { fitted := false, pipeline := none, feature_names := none }

/-- `TrainPreprocessor.fit(data)`: derive BMI / Age_Group in place, fit the
column transformer on the mutated table, store the output feature names and
set the fitted flag.  Returns the new object state together with the
caller's table as it is left after the call. -/
def TrainPreprocessor.fit (data : DataFrame) :
    Except PyError (TrainPreprocessor × DataFrame) :=
  match deriveFeatures data with
  | .error e => .error e
  | .ok df2 =>
    let p := fitPipeline df2
    .ok ({ fitted := true
           pipeline := some p
           feature_names := some (p.nums.map Prod.fst ++ oneHotNames p.cats) }, df2)

/-- Message of the `RuntimeError` raised by
`BasePreprocessor._check_fitted`. -/
def checkFittedMsg : String := "Preprocessor must be fitted before calling transform()."

/-- Column selection inside `ColumnTransformer.transform` for a numeric
input column. -/
def getNumColE (df : DataFrame) (c : String) : Except PyError (List ℚ) :=
  match lookupCol df c with
  | some (.num vs) => .ok vs
  | some (.cat _) => .error (.valueError "could not convert string to float")
  | none => .error (.valueError "columns are missing")

def getCatColE (df : DataFrame) (c : String) : Except PyError (List (Option String)) :=
  match lookupCol df c with
  | some (.cat vs) => .ok vs
  | some (.num _) => .error (.valueError "dtype mismatch with fitted categories")
  | none => .error (.valueError "columns are missing")

/-- Sequential effectful map, as the column loop of a transformer runs. -/
def exceptMapM (f : α → Except PyError β) : List α → Except PyError (List β)
  | [] => .ok []
  | x :: xs =>
    match f x with
    | .error e => .error e
    | .ok y =>
      match exceptMapM f xs with
      | .error e => .error e
      | .ok ys => .ok (y :: ys)

/-- `(x - mean) / scale`, elementwise: `StandardScaler.transform`. -/
def scaleColumn (s : FittedScaler) (vs : List ℚ) : List ℚ :=
  vs.map fun x => (x - s.mean) / s.scale

/-- `OneHotEncoder.transform` for one column: one 0/1 output column per
stored category; a value equal to no stored category (unknown, with
`handle_unknown="ignore"`) contributes 0 to every output column of the
block. -/
def oneHotBlock (vocab : List (Option String)) (vs : List (Option String)) :
    List (List ℚ) :=
  vocab.map fun cat => vs.map fun v => if v = cat then 1 else 0

def scaledNumCol (df : DataFrame) (cs : String × FittedScaler) :
    Except PyError (List ℚ) :=
  match getNumColE df cs.1 with
  | .error e => .error e
  | .ok vs => .ok (scaleColumn cs.2 vs)

def oneHotCatCol (df : DataFrame) (cv : String × List (Option String)) :
    Except PyError (List (List ℚ)) :=
  match getCatColE df cv.1 with
  | .error e => .error e
  | .ok vs => .ok (oneHotBlock cv.2 vs)

/-- `ColumnTransformer.transform`: the scaled numeric block (stored numeric
columns, in order) followed by the one-hot block (stored categorical
columns, in order, each expanded to its vocabulary's columns).  The result
is the list of output columns of the produced array. -/
def applyPipeline (p : FittedPipeline) (df : DataFrame) :
    Except PyError (List (List ℚ)) :=
  match exceptMapM (scaledNumCol df) p.nums with
  | .error e => .error e
  | .ok numBlock =>
    match exceptMapM (oneHotCatCol df) p.cats with
    | .error e => .error e
    | .ok catBlocks => .ok (numBlock ++ catBlocks.flatten)

/-- A column label of a produced table: a real name, or a positional label
of a pandas RangeIndex (`pd.DataFrame(array)` with no `columns=`). -/
inductive ColLabel where
  | name (s : String)
  | index (i : Nat)
  deriving DecidableEq, Repr

/-- A produced feature table: labelled columns of rationals. -/
abbrev OutTable := List (ColLabel × List ℚ)

/-- `pd.DataFrame(array, columns=names)` (or no `columns=` when `names` is
`none`, which labels columns 0, 1, ...). -/
def mkOutput (names : Option (List String)) (cols : List (List ℚ)) :
    Except PyError OutTable :=
  match names with
  | some ns =>
    if ns.length = cols.length then .ok ((ns.map ColLabel.name).zip cols)
    else .error (.valueError "Shape of passed values does not match columns")
  | none => .ok (((List.range cols.length).map ColLabel.index).zip cols)

def outLabels (t : OutTable) : List ColLabel := t.map Prod.fst

/-- `TrainPreprocessor.transform(data)`: `_check_fitted`, the two in-place
derivations on the caller's table, `pipeline.transform`, and wrapping in a
DataFrame labelled by the stored `feature_names`.  Returns the caller's
table as left after the call together with the produced table. -/
def TrainPreprocessor.transform (tp : TrainPreprocessor) (data : DataFrame) :
    Except PyError (DataFrame × OutTable) :=
  match tp.fitted with
  | false => .error (.runtimeError checkFittedMsg)
  | true =>
    match deriveFeatures data with
    | .error e => .error e
    | .ok df2 =>
      match tp.pipeline with
      | none => .error (.attributeError "NoneType object has no attribute transform")
      | some p =>
        match applyPipeline p df2 with
        | .error e => .error e
        | .ok cols =>
          match mkOutput tp.feature_names cols with
          | .error e => .error e
          | .ok out => .ok (df2, out)

/-- `joblib.dump(self.pipeline, path)`: the artifact written to disk is the
pipeline object and nothing else — neither `feature_names` nor the fitted
flag is serialized. -/
def TrainPreprocessor.save (tp : TrainPreprocessor) : Option FittedPipeline :=
  tp.pipeline

/-- `TrainPreprocessor.load(path)`: `self.pipeline = joblib.load(path);
self.fitted = True` (joblib round-trips the object faithfully). -/
def TrainPreprocessor.load (artifact : Option FittedPipeline)
    (tp : TrainPreprocessor) : TrainPreprocessor :=
  { tp with pipeline := artifact, fitted := true }

/-- State of an `InferencePreprocessor` object. -/
structure InferencePreprocessor where
  fitted : Bool
  pipeline : Option FittedPipeline
  preprocessor_path : String
  deriving DecidableEq, Repr

/-- `InferencePreprocessor(path)`: fresh, unfitted. -/
def InferencePreprocessor.new (path : String) : InferencePreprocessor :=
  { fitted := false, pipeline := none, preprocessor_path := path }

/-- `InferencePreprocessor.load`: load the pipeline artifact and set the
fitted flag. -/
def InferencePreprocessor.load (artifact : Option FittedPipeline)
    (ip : InferencePreprocessor) : InferencePreprocessor :=
  { ip with pipeline := artifact, fitted := true }

/-- `InferencePreprocessor.transform(data)`: as the training transform but
the produced array is wrapped with `pd.DataFrame(transformed_array)` —
no column names. -/
def InferencePreprocessor.transform (ip : InferencePreprocessor)
    (data : DataFrame) : Except PyError (DataFrame × OutTable) :=
  match ip.fitted with
  | false => .error (.runtimeError checkFittedMsg)
  | true =>
    match deriveFeatures data with
    | .error e => .error e
    | .ok df2 =>
      match ip.pipeline with
      | none => .error (.attributeError "NoneType object has no attribute transform")
      | some p =>
        match applyPipeline p df2 with
        | .error e => .error e
        | .ok cols =>
          match mkOutput none cols with
          | .error e => .error e
          | .ok out => .ok (df2, out)

/-- Insert into a sorted duplicate-free list of integer labels. -/
def insertLabel (x : ℤ) : List ℤ → List ℤ
  | [] => [x]
  | y :: ys =>
    if x = y then y :: ys
    else if x < y then x :: y :: ys
    else y :: insertLabel x ys

/-- The sorted distinct labels occurring in either vector — the label order
sklearn's metrics and `confusion_matrix` use. -/
def unionLabels (y_true y_pred : List ℤ) : List ℤ :=
  (y_true ++ y_pred).foldl (fun acc v => insertLabel v acc) []

/-- Division returning 0 on a zero denominator: models sklearn's
zero-division handling in precision/recall/F1 (`zero_division` default). -/
def safeDiv (a b : ℚ) : ℚ := if b = 0 then 0 else a / b

/-- True positives of class `c` over aligned (true, predicted) pairs. -/
def countTP (pairs : List (ℤ × ℤ)) (c : ℤ) : Nat :=
  pairs.countP fun pr => pr.1 == c && pr.2 == c

/-- Per-class precision: TP over predicted-positive count. -/
def precisionOf (pairs : List (ℤ × ℤ)) (c : ℤ) : ℚ :=
  safeDiv (countTP pairs c) (pairs.countP fun pr => pr.2 == c)

/-- Per-class recall: TP over true-positive-support count. -/
def recallOf (pairs : List (ℤ × ℤ)) (c : ℤ) : ℚ :=
  safeDiv (countTP pairs c) (pairs.countP fun pr => pr.1 == c)

/-- Per-class F1: harmonic mean of precision and recall (0 when both are 0). -/
def f1Of (pairs : List (ℤ × ℤ)) (c : ℤ) : ℚ :=
  safeDiv (2 * precisionOf pairs c * recallOf pairs c)
    (precisionOf pairs c + recallOf pairs c)

/-- Number of rows whose true label is `c` (the class support). -/
def supportOf (y_true : List ℤ) (c : ℤ) : Nat := y_true.countP (· == c)

/-- `average="weighted"`: per-class values averaged with the class supports
as weights. -/
def weightedAvg (y_true : List ℤ) (labels : List ℤ) (m : ℤ → ℚ) : ℚ :=
  safeDiv (listSum (labels.map fun c => (supportOf y_true c : ℚ) * m c))
    (listSum (labels.map fun c => (supportOf y_true c : ℚ)))

/-- The metrics dictionary `ModelEvaluator.evaluate` returns: exactly the
four scalar entries built in `evaluator.py`. -/
abbrev Metrics := List (String × ℚ)

/-- `ModelEvaluator.evaluate(y_true, y_pred)`: accuracy plus weighted
precision/recall/F1, returned as the four-entry dictionary. -/
def ModelEvaluator.evaluate (y_true y_pred : List ℤ) : Metrics :=
  let pairs := y_true.zip y_pred
  let labels := unionLabels y_true y_pred
  [("accuracy", safeDiv (pairs.countP fun pr => pr.1 == pr.2 : Nat) (y_true.length : ℚ)),
   ("precision", weightedAvg y_true labels (precisionOf pairs)),
   ("recall", weightedAvg y_true labels (recallOf pairs)),
   ("f1_score", weightedAvg y_true labels (f1Of pairs))]

/-- `sklearn.metrics.confusion_matrix(y_true, y_pred)`: rows are true
labels, columns predicted labels, both in sorted distinct-label order.
`evaluate` computes this for its log line; it is not part of the returned
dictionary. -/
def confusionMatrix (y_true y_pred : List ℤ) : List (List Nat) :=
  let pairs := y_true.zip y_pred
  let labels := unionLabels y_true y_pred
  labels.map fun i => labels.map fun j =>
    pairs.countP fun pr => pr.1 == i && pr.2 == j

/-- A model trainer at its boundary (the three boosted-tree backends are
external collaborators): the net effect of `trainer.train(X_train, y_train,
X_valid, y_valid)` followed by `trainer.predict(X_valid)` is a prediction
vector determined by those four inputs. -/
def Trainer : Type := OutTable → List ℤ → OutTable → List ℤ → List ℤ

/-- `metrics[key]` on the evaluator's dictionary; every key the comparator
uses is present by construction, so the missing-key branch is a harmless
total-function default. -/
def lookupMetric : Metrics → String → ℚ
  | [], _ => 0
  | (k, v) :: t, s => if k = s then v else lookupMetric t s

/-- Python's `max(iterable, key=f)`: scan left to right keeping the current
best, replacing it only on a strictly greater key — so the first of several
maximal elements wins; `None` here models the `ValueError` on an empty
iterable. -/
def pyMax (f : α → ℚ) : List α → Option α
  | [] => none
  | x :: xs => some (xs.foldl (fun b y => if f b < f y then y else b) x)

/-- The `name -> evaluate(y_valid, preds)` results dictionary the
comparator's loop builds, in trainer iteration order (a fresh
`ModelComparator` starts with an empty `self.results`). -/
def compareResults (trainers : List (String × Trainer))
    (X_train X_valid : OutTable) (y_train y_valid : List ℤ) :
    List (String × Metrics) :=
  trainers.map fun nt =>
    (nt.1, ModelEvaluator.evaluate y_valid (nt.2 X_train y_train X_valid y_valid))

/-- `ModelComparator().compare(trainers, X_train, X_valid, y_train,
y_valid)`: train and evaluate every trainer, then
`max(results, key=lambda k: results[k]["f1_score"])`. -/
def ModelComparator.compare (trainers : List (String × Trainer))
    (X_train X_valid : OutTable) (y_train y_valid : List ℤ) :
    Except PyError (String × Metrics) :=
  match pyMax (fun r => lookupMetric r.2 "f1_score")
      (compareResults trainers X_train X_valid y_train y_valid) with
  | some best => .ok best
  | none => .error (.valueError "max() arg is an empty sequence")

/-! Concrete tables used by witnesses and counterexamples. -/

/-- A one-row training table (label column present, height in meters). -/
def exD : DataFrame :=
  [("Age", .num [25]), ("Height", .num [2]), ("Weight", .num [80]),
   ("Gender", .cat [some "Male"]), ("NObeyesdad", .cat [some "Normal"])]

/-- A two-row table with the same column schema as `exD`; its first row
carries the Gender value `"Other"`, never observed while fitting on `exD`. -/
def exA : DataFrame :=
  [("Age", .num [30, 45]), ("Height", .num [2, 1]), ("Weight", .num [60, 50]),
   ("Gender", .cat [some "Other", some "Male"]),
   ("NObeyesdad", .cat [some "Normal", some "Obese"])]

/-- A three-row table with the same column schema as `exD`. -/
def exB : DataFrame :=
  [("Age", .num [19, 55, 33]), ("Height", .num [2, 2, 1]),
   ("Weight", .num [90, 70, 40]),
   ("Gender", .cat [some "Female", some "Male", some "Male"]),
   ("NObeyesdad", .cat [some "Obese", some "Normal", some "Normal"])]

/-- The result of fitting on `exD`. -/
def exFit : Except PyError (TrainPreprocessor × DataFrame) :=
  TrainPreprocessor.fit exD

/-- The preprocessor state fitted on `exD`. -/
def exFitT : TrainPreprocessor :=
  match exFit with
  | .ok r => r.1
  | .error _ => TrainPreprocessor.new

/-- The caller's table after fitting on `exD`. -/
def exFitD2 : DataFrame :=
  match exFit with
  | .ok r => r.2
  | .error _ => []

/-- A training table with no label column, mirroring the repository's own
`test_preprocessing_fit_transform` test (which fits without `NObeyesdad`). -/
def exNoLabel : DataFrame :=
  [("Age", .num [25]), ("Height", .num [2]), ("Weight", .num [80]),
   ("Gender", .cat [some "Male"])]

/-- A table with no Weight column. -/
def exMissingWeight : DataFrame :=
  [("Age", .num [25]), ("Height", .num [2]), ("Gender", .cat [some "Male"])]

/-- A table with a Weight column but no Height column. -/
def exMissingHeight : DataFrame :=
  [("Age", .num [25]), ("Weight", .num [80])]

/-- A table with Weight and Height but no Age column. -/
def exMissingAge : DataFrame :=
  [("Height", .num [2]), ("Weight", .num [80]), ("Gender", .cat [some "Male"])]

/-- Whether a call returned normally (no exception). -/
def exceptIsOk {α : Type} : Except PyError α → Bool
  | .ok _ => true
  | .error _ => false

/-- Forget the produced table's column labels, keeping the caller-table
state and the produced columns' values in order. -/
def stripVals (r : Except PyError (DataFrame × OutTable)) :
    Except PyError (DataFrame × List (List ℚ)) :=
  r.map fun pr => (pr.1, pr.2.map Prod.snd)

/-- The spec's end-to-end training table, literally as written (heights 170
and 160, i.e. centimeters). -/
def table8 : DataFrame :=
  [("Age", .num [25, 40]), ("Height", .num [170, 160]),
   ("Weight", .num [70, 95]),
   ("Gender", .cat [some "Male", some "Female"]),
   ("NObeyesdad", .cat [some "Normal", some "Obese"])]

/-- The spec's end-to-end training table with heights read in meters (1.70
and 1.60), the only reading under which its expected BMI values arise. -/
def table8m : DataFrame :=
  [("Age", .num [25, 40]), ("Height", .num [17/10, 16/10]),
   ("Weight", .num [70, 95]),
   ("Gender", .cat [some "Male", some "Female"]),
   ("NObeyesdad", .cat [some "Normal", some "Obese"])]

/-- Ten-class validation labels realizing exact weighted-F1 values. -/
def yValid10 : List ℤ := [0, 1, 2, 3, 4, 5, 6, 7, 8, 9]

/-- Predictions with weighted F1 exactly 4/5 against `yValid10`. -/
def predsA10 : List ℤ := [0, 1, 2, 3, 4, 5, 6, 7, 10, 11]

/-- Predictions with weighted F1 exactly 9/10 against `yValid10`. -/
def predsB10 : List ℤ := [0, 1, 2, 3, 4, 5, 6, 7, 8, 10]

/-- Trainers named A, B, C whose validation F1 scores are 0.80, 0.90, 0.90,
in that iteration order. -/
def abcTrainers : List (String × Trainer) :=
  [("A", fun _ _ _ _ => predsA10),
   ("B", fun _ _ _ _ => predsB10),
   ("C", fun _ _ _ _ => predsB10)]

deriving instance DecidableEq for Except

/-! Infrastructure lemmas. -/

theorem lookup_isNum_eq : ∀ {A B : DataFrame}, schema A = schema B → ∀ n,
    (lookupCol A n).map ColData.isNum = (lookupCol B n).map ColData.isNum := by
  intro A
  induction A with
  | nil =>
    intro B h n
    cases B with
    | nil => rfl
    | cons b bt => simp [schema] at h
  | cons a t ih =>
    intro B h n
    cases B with
    | nil => simp [schema] at h
    | cons b bt =>
      obtain ⟨m, c⟩ := a
      obtain ⟨m', c'⟩ := b
      simp only [schema, List.map_cons, List.cons.injEq, Prod.mk.injEq] at h
      obtain ⟨⟨h1, h2⟩, h3⟩ := h
      subst h1
      by_cases hn : m = n
      · simp [lookupCol, hn, h2]
      · simp only [lookupCol, if_neg hn]
        exact ih h3 n

theorem schema_setCol_eq : ∀ {A B : DataFrame}, schema A = schema B →
    ∀ (c d : ColData), c.isNum = d.isNum → ∀ n,
    schema (setCol A n c) = schema (setCol B n d) := by
  intro A
  induction A with
  | nil =>
    intro B h c d hcd n
    cases B with
    | nil => simp [setCol, schema, hcd]
    | cons b bt => simp [schema] at h
  | cons a t ih =>
    intro B h c d hcd n
    cases B with
    | nil => simp [schema] at h
    | cons b bt =>
      obtain ⟨m, ca⟩ := a
      obtain ⟨m', cb⟩ := b
      simp only [schema, List.map_cons, List.cons.injEq, Prod.mk.injEq] at h
      obtain ⟨⟨h1, h2⟩, h3⟩ := h
      subst h1
      by_cases hn : m = n
      · simp [setCol, hn, schema, hcd, h3]
      · simp only [setCol, if_neg hn]
        show (m, ca.isNum) :: schema (setCol t n c) = (m, cb.isNum) :: schema (setCol bt n d)
        rw [h2, ih h3 c d hcd n]

theorem lookupCol_setCol_self (df : DataFrame) (n : String) (c : ColData) :
    lookupCol (setCol df n c) n = some c := by
  induction df with
  | nil => simp [setCol, lookupCol]
  | cons a t ih =>
    obtain ⟨m, d⟩ := a
    by_cases hn : m = n
    · simp [setCol, hn, lookupCol]
    · simp [setCol, hn, lookupCol, ih]

theorem lookupCol_setCol_ne (df : DataFrame) {m n : String} (h : n ≠ m)
    (c : ColData) : lookupCol (setCol df n c) m = lookupCol df m := by
  induction df with
  | nil => simp [setCol, lookupCol, h]
  | cons a t ih =>
    obtain ⟨k, d⟩ := a
    by_cases hk : k = n
    · subst hk
      simp [setCol, lookupCol, h]
    · simp [setCol, hk, lookupCol, ih]

theorem mem_dfNames_setCol {x : String} : ∀ {df : DataFrame} {n : String}
    {c : ColData}, x ∈ dfNames (setCol df n c) → x ∈ dfNames df ∨ x = n := by
  intro df
  induction df with
  | nil =>
    intro n c h
    rcases List.mem_cons.mp h with h | h
    · exact Or.inr h
    · exact absurd h (List.not_mem_nil x)
  | cons a t ih =>
    intro n c h
    obtain ⟨m, d⟩ := a
    by_cases hn : m = n
    · rw [show setCol ((m, d) :: t) n c = (m, c) :: t from by
        simp only [setCol, if_pos hn]] at h
      rcases List.mem_cons.mp h with h | h
      · exact Or.inl (List.mem_cons.mpr (Or.inl h))
      · exact Or.inl (List.mem_cons.mpr (Or.inr h))
    · rw [show setCol ((m, d) :: t) n c = (m, d) :: setCol t n c from by
        simp only [setCol, if_neg hn]] at h
      rcases List.mem_cons.mp h with h | h
      · exact Or.inl (List.mem_cons.mpr (Or.inl h))
      · rcases ih h with h' | h'
        · exact Or.inl (List.mem_cons.mpr (Or.inr h'))
        · exact Or.inr h'

theorem nodupNames_setCol : ∀ {df : DataFrame}, nodupNames df →
    ∀ (n : String) (c : ColData), nodupNames (setCol df n c) := by
  intro df
  induction df with
  | nil =>
    intro _ n c
    simp [setCol, nodupNames, dfNames]
  | cons a t ih =>
    intro h n c
    obtain ⟨m, d⟩ := a
    simp only [nodupNames, dfNames, List.map_cons, List.nodup_cons] at h
    obtain ⟨hm, ht⟩ := h
    by_cases hn : m = n
    · rw [show setCol ((m, d) :: t) n c = (m, c) :: t from by
        simp only [setCol, if_pos hn]]
      simp only [nodupNames, dfNames, List.map_cons, List.nodup_cons]
      exact ⟨hm, ht⟩
    · rw [show setCol ((m, d) :: t) n c = (m, d) :: setCol t n c from by
        simp only [setCol, if_neg hn]]
      simp only [nodupNames, dfNames, List.map_cons, List.nodup_cons]
      refine ⟨fun hmem => ?_, ih ht n c⟩
      rcases mem_dfNames_setCol hmem with h' | h'
      · exact hm (by simpa [dfNames] using h')
      · exact hn h'

theorem lookup_num_of_mem_filter : ∀ {df : DataFrame}, nodupNames df →
    ∀ {c : String}, c ∈ (df.filter fun p => p.2.isNum).map Prod.fst →
    ∃ vs, lookupCol df c = some (.num vs) := by
  intro df
  induction df with
  | nil =>
    intro _ c hc
    simp [List.filter] at hc
  | cons a t ih =>
    intro hnd c hc
    obtain ⟨m, d⟩ := a
    simp only [nodupNames, dfNames, List.map_cons, List.nodup_cons] at hnd
    obtain ⟨hm, ht⟩ := hnd
    by_cases hcm : m = c
    · subst hcm
      cases d with
      | num vs => exact ⟨vs, by simp [lookupCol]⟩
      | cat vs =>
        exfalso
        simp only [List.filter_cons, ColData.isNum, Bool.false_eq_true,
          if_false, List.mem_map] at hc
        obtain ⟨p, hp, hpc⟩ := hc
        exact hm (hpc ▸ List.mem_map_of_mem Prod.fst (List.mem_of_mem_filter hp))
    · have hc' : c ∈ (t.filter fun p => p.2.isNum).map Prod.fst := by
        rcases List.mem_map.mp hc with ⟨p, hp, hpc⟩
        rcases List.mem_cons.mp (List.mem_of_mem_filter hp) with h | h
        · exact absurd (by rw [← hpc, h]) hcm
        · have hpf : p ∈ t.filter fun p => p.2.isNum :=
            List.mem_filter.mpr ⟨h, (List.mem_filter.mp hp).2⟩
          exact hpc ▸ List.mem_map_of_mem Prod.fst hpf
      obtain ⟨vs, hvs⟩ := ih ht hc'
      exact ⟨vs, by simp [lookupCol, hcm, hvs]⟩

theorem lookup_cat_of_mem_filter : ∀ {df : DataFrame}, nodupNames df →
    ∀ {c : String}, c ∈ (df.filter fun p => !p.2.isNum).map Prod.fst →
    ∃ vs, lookupCol df c = some (.cat vs) := by
  intro df
  induction df with
  | nil =>
    intro _ c hc
    simp [List.filter] at hc
  | cons a t ih =>
    intro hnd c hc
    obtain ⟨m, d⟩ := a
    simp only [nodupNames, dfNames, List.map_cons, List.nodup_cons] at hnd
    obtain ⟨hm, ht⟩ := hnd
    by_cases hcm : m = c
    · subst hcm
      cases d with
      | cat vs => exact ⟨vs, by simp [lookupCol]⟩
      | num vs =>
        exfalso
        simp only [List.filter_cons, ColData.isNum, Bool.not_true,
          Bool.false_eq_true, if_false, List.mem_map] at hc
        obtain ⟨p, hp, hpc⟩ := hc
        exact hm (hpc ▸ List.mem_map_of_mem Prod.fst (List.mem_of_mem_filter hp))
    · have hc' : c ∈ (t.filter fun p => !p.2.isNum).map Prod.fst := by
        rcases List.mem_map.mp hc with ⟨p, hp, hpc⟩
        rcases List.mem_cons.mp (List.mem_of_mem_filter hp) with h | h
        · exact absurd (by rw [← hpc, h]) hcm
        · have hpf : p ∈ t.filter fun p => !p.2.isNum :=
            List.mem_filter.mpr ⟨h, (List.mem_filter.mp hp).2⟩
          exact hpc ▸ List.mem_map_of_mem Prod.fst hpf
      obtain ⟨vs, hvs⟩ := ih ht hc'
      exact ⟨vs, by simp [lookupCol, hcm, hvs]⟩

/-- The derived BMI column produced from weights and heights. -/
def bmiCol (ws hs : List ℚ) : List ℚ :=
  List.zipWith (fun a b => a / b) ws (hs.map fun x => x ^ 2)

theorem deriveFeatures_inv {df df2 : DataFrame} (h : deriveFeatures df = .ok df2) :
    ∃ ws hs as,
      lookupCol df "Weight" = some (.num ws) ∧
      lookupCol df "Height" = some (.num hs) ∧
      lookupCol (setCol df "BMI" (.num (bmiCol ws hs))) "Age" = some (.num as) ∧
      df2 = setCol (setCol df "BMI" (.num (bmiCol ws hs))) "Age_Group"
        (.cat (as.map cutAge)) := by
  unfold deriveFeatures at h
  split at h
  · exact absurd h (by simp)
  next w hW =>
    split at h
    · exact absurd h (by simp)
    next hc hH =>
      cases hc with
      | cat vs => exact absurd h (by simp [colPow2])
      | num hs =>
        cases w with
        | cat vs => exact absurd h (by simp [colPow2, colDivide])
        | num ws =>
          simp only [colPow2, colDivide] at h
          split at h
          · exact absurd h (by simp)
          next a hA =>
            cases a with
            | cat vs => exact absurd h (by simp [colCut])
            | num as =>
              simp only [colCut, Except.ok.injEq] at h
              exact ⟨ws, hs, as, hW, hH, hA, h.symm⟩

theorem deriveFeatures_eval {df : DataFrame} {ws hs as : List ℚ}
    (hW : lookupCol df "Weight" = some (.num ws))
    (hH : lookupCol df "Height" = some (.num hs))
    (hA : lookupCol (setCol df "BMI" (.num (bmiCol ws hs))) "Age" = some (.num as)) :
    deriveFeatures df = .ok (setCol (setCol df "BMI" (.num (bmiCol ws hs)))
      "Age_Group" (.cat (as.map cutAge))) := by
  unfold deriveFeatures
  rw [hW, hH]
  simp only [colPow2, colDivide, colCut]
  rw [show List.zipWith (fun a b => a / b) ws (hs.map fun x => x ^ 2) = bmiCol ws hs from rfl]
  rw [hA]

theorem deriveFeatures_shape {df df2 : DataFrame}
    (h : deriveFeatures df = .ok df2) :
    ∃ bmi ag, df2 = setCol (setCol df "BMI" (.num bmi)) "Age_Group" (.cat ag) := by
  obtain ⟨ws, hs, as, _, _, _, hdf2⟩ := deriveFeatures_inv h
  exact ⟨_, _, hdf2⟩

theorem deriveFeatures_transfer {A B A2 : DataFrame}
    (hAB : schema A = schema B) (hA : deriveFeatures A = .ok A2) :
    ∃ B2, deriveFeatures B = .ok B2 ∧ schema B2 = schema A2 := by
  obtain ⟨ws, hs, as, hW, hH, hAge, hA2⟩ := deriveFeatures_inv hA
  have hWB := lookup_isNum_eq hAB "Weight"
  rw [hW] at hWB
  have hHB := lookup_isNum_eq hAB "Height"
  rw [hH] at hHB
  obtain ⟨wB, hWB', hWnum⟩ : ∃ wB, lookupCol B "Weight" = some wB ∧ wB.isNum = true := by
    cases hB : lookupCol B "Weight" with
    | none => rw [hB] at hWB; exact absurd hWB (by simp)
    | some wB =>
      rw [hB] at hWB
      simp only [Option.map_some', Option.some.injEq] at hWB
      exact ⟨wB, rfl, hWB.symm⟩
  obtain ⟨hB, hHB', hHnum⟩ : ∃ hB, lookupCol B "Height" = some hB ∧ hB.isNum = true := by
    cases hBx : lookupCol B "Height" with
    | none => rw [hBx] at hHB; exact absurd hHB (by simp)
    | some hB =>
      rw [hBx] at hHB
      simp only [Option.map_some', Option.some.injEq] at hHB
      exact ⟨hB, rfl, hHB.symm⟩
  obtain ⟨wsB, rfl⟩ : ∃ wsB, wB = ColData.num wsB := by
    cases wB with
    | num wsB => exact ⟨wsB, rfl⟩
    | cat _ => exact absurd hWnum (by simp [ColData.isNum])
  obtain ⟨hsB, rfl⟩ : ∃ hsB, hB = ColData.num hsB := by
    cases hB with
    | num hsB => exact ⟨hsB, rfl⟩
    | cat _ => exact absurd hHnum (by simp [ColData.isNum])
  have hsch1 : schema (setCol A "BMI" (.num (bmiCol ws hs))) =
      schema (setCol B "BMI" (.num (bmiCol wsB hsB))) :=
    schema_setCol_eq hAB (.num (bmiCol ws hs)) (.num (bmiCol wsB hsB)) rfl "BMI"
  have hAgeB := lookup_isNum_eq hsch1 "Age"
  rw [hAge] at hAgeB
  obtain ⟨aB, hAgeB', hAnum⟩ : ∃ aB,
      lookupCol (setCol B "BMI" (.num (bmiCol wsB hsB))) "Age" = some aB ∧
      aB.isNum = true := by
    cases hBx : lookupCol (setCol B "BMI" (.num (bmiCol wsB hsB))) "Age" with
    | none => rw [hBx] at hAgeB; exact absurd hAgeB (by simp)
    | some aB =>
      rw [hBx] at hAgeB
      simp only [Option.map_some', Option.some.injEq] at hAgeB
      exact ⟨aB, rfl, hAgeB.symm⟩
  obtain ⟨asB, rfl⟩ : ∃ asB, aB = ColData.num asB := by
    cases aB with
    | num asB => exact ⟨asB, rfl⟩
    | cat _ => exact absurd hAnum (by simp [ColData.isNum])
  refine ⟨_, deriveFeatures_eval hWB' hHB' hAgeB', ?_⟩
  rw [hA2]
  exact (schema_setCol_eq hsch1 (.cat (as.map cutAge)) (.cat (asB.map cutAge))
    rfl "Age_Group").symm

theorem exceptMapM_forall2 {f : α → Except PyError β} :
    ∀ {l : List α} {ys : List β}, exceptMapM f l = .ok ys →
    List.Forall₂ (fun x y => f x = .ok y) l ys := by
  intro l
  induction l with
  | nil =>
    intro ys h
    simp only [exceptMapM, Except.ok.injEq] at h
    rw [← h]
    exact List.Forall₂.nil
  | cons x xs ih =>
    intro ys h
    unfold exceptMapM at h
    cases hx : f x with
    | error e => rw [hx] at h; exact absurd h (by simp)
    | ok y =>
      rw [hx] at h
      cases hxs : exceptMapM f xs with
      | error e => rw [hxs] at h; exact absurd h (by simp)
      | ok ys' =>
        rw [hxs] at h
        simp only [Except.ok.injEq] at h
        rw [← h]
        exact List.Forall₂.cons hx (ih hxs)

theorem exceptMapM_ok_of_all {f : α → Except PyError β} :
    ∀ {l : List α}, (∀ x ∈ l, ∃ y, f x = .ok y) →
    ∃ ys, exceptMapM f l = .ok ys := by
  intro l
  induction l with
  | nil => exact fun _ => ⟨[], rfl⟩
  | cons x xs ih =>
    intro hall
    obtain ⟨y, hy⟩ := hall x (List.mem_cons_self x xs)
    obtain ⟨ys, hys⟩ := ih fun z hz => hall z (List.mem_cons_of_mem x hz)
    exact ⟨y :: ys, by unfold exceptMapM; rw [hy, hys]⟩

theorem flatten_length_of_forall2
    {cats : List (String × List (Option String))} :
    ∀ {blocks : List (List (List ℚ))},
    List.Forall₂ (fun cv bl => (bl : List (List ℚ)).length = cv.2.length) cats blocks →
    blocks.flatten.length = (cats.map fun cv => cv.2.length).sum := by
  induction cats with
  | nil =>
    intro blocks h
    cases h
    simp
  | cons cv cvs ih =>
    intro blocks h
    cases h with
    | cons hlen htail =>
      simp only [List.flatten_cons, List.length_append, List.map_cons, List.sum_cons]
      rw [hlen, ih htail]

theorem oneHotCatCol_inv {df : DataFrame} {cv : String × List (Option String)}
    {bl : List (List ℚ)} (h : oneHotCatCol df cv = .ok bl) :
    ∃ vs, getCatColE df cv.1 = .ok vs ∧ bl = oneHotBlock cv.2 vs := by
  unfold oneHotCatCol at h
  cases hg : getCatColE df cv.1 with
  | error e => rw [hg] at h; exact absurd h (by simp)
  | ok vs =>
    rw [hg] at h
    simp only [Except.ok.injEq] at h
    exact ⟨vs, rfl, h.symm⟩

theorem applyPipeline_length {p : FittedPipeline} {df : DataFrame}
    {cols : List (List ℚ)} (h : applyPipeline p df = .ok cols) :
    cols.length = p.nums.length + (p.cats.map fun cv => cv.2.length).sum := by
  unfold applyPipeline at h
  cases h1 : exceptMapM (scaledNumCol df) p.nums with
  | error e => rw [h1] at h; exact absurd h (by simp)
  | ok numBlock =>
    rw [h1] at h
    cases h2 : exceptMapM (oneHotCatCol df) p.cats with
    | error e => rw [h2] at h; exact absurd h (by simp)
    | ok catBlocks =>
      rw [h2] at h
      simp only [Except.ok.injEq] at h
      have hlen1 : numBlock.length = p.nums.length :=
        ((exceptMapM_forall2 h1).length_eq).symm
      have hfa : List.Forall₂ (fun cv bl => (bl : List (List ℚ)).length = cv.2.length)
          p.cats catBlocks := by
        refine (exceptMapM_forall2 h2).imp fun cv bl hx => ?_
        obtain ⟨vs, _, hbl⟩ := oneHotCatCol_inv hx
        simp [hbl, oneHotBlock]
      rw [← h, List.length_append, hlen1, flatten_length_of_forall2 hfa]

theorem oneHotNames_length (cats : List (String × List (Option String))) :
    (oneHotNames cats).length = (cats.map fun cv => cv.2.length).sum := by
  induction cats with
  | nil => rfl
  | cons cv cvs ih =>
    simp only [oneHotNames, List.flatMap_cons, List.length_append, List.length_map,
      List.map_cons, List.sum_cons] at ih ⊢
    rw [ih]

theorem fit_inv {D : DataFrame} {T : TrainPreprocessor} {D2 : DataFrame}
    (h : TrainPreprocessor.fit D = .ok (T, D2)) :
    deriveFeatures D = .ok D2 ∧
    T = { fitted := true
          pipeline := some (fitPipeline D2)
          feature_names := some ((fitPipeline D2).nums.map Prod.fst ++
            oneHotNames (fitPipeline D2).cats) } := by
  unfold TrainPreprocessor.fit at h
  cases hd : deriveFeatures D with
  | error e => rw [hd] at h; exact absurd h (by simp)
  | ok df2 =>
    rw [hd] at h
    simp only [Except.ok.injEq, Prod.mk.injEq] at h
    obtain ⟨hT, hD2⟩ := h
    subst hD2
    exact ⟨rfl, hT.symm⟩

theorem scaledNumCol_ok_of_lookup {df : DataFrame} {c : String} {vs : List ℚ}
    (s : FittedScaler) (h : lookupCol df c = some (.num vs)) :
    scaledNumCol df (c, s) = .ok (scaleColumn s vs) := by
  simp [scaledNumCol, getNumColE, h]

theorem oneHotCatCol_ok_of_lookup {df : DataFrame} {c : String}
    {vs : List (Option String)} (vocab : List (Option String))
    (h : lookupCol df c = some (.cat vs)) :
    oneHotCatCol df (c, vocab) = .ok (oneHotBlock vocab vs) := by
  simp [oneHotCatCol, getCatColE, h]

theorem transform_eval {T : TrainPreprocessor} {A A2 : DataFrame}
    {p : FittedPipeline} {cols : List (List ℚ)} {out : OutTable}
    (hf : T.fitted = true) (hp : T.pipeline = some p)
    (hd : deriveFeatures A = .ok A2) (ha : applyPipeline p A2 = .ok cols)
    (hm : mkOutput T.feature_names cols = .ok out) :
    T.transform A = .ok (A2, out) := by
  unfold TrainPreprocessor.transform
  simp only [hf, hd, hp, ha, hm]

theorem mkOutput_some_ok {ns : List String} {cols : List (List ℚ)}
    (h : ns.length = cols.length) :
    mkOutput (some ns) cols = .ok ((ns.map ColLabel.name).zip cols) := by
  simp [mkOutput, h]

theorem outLabels_zip_names {ns : List String} {cols : List (List ℚ)}
    (h : ns.length = cols.length) :
    outLabels ((ns.map ColLabel.name).zip cols) = ns.map ColLabel.name := by
  unfold outLabels
  exact List.map_fst_zip _ _ (by simp [h])

theorem transform_ok_of_fit {D : DataFrame} {T : TrainPreprocessor}
    {D2 : DataFrame} (hfit : TrainPreprocessor.fit D = .ok (T, D2))
    (hnd : nodupNames D) {A : DataFrame} (hA : schema A = schema D) :
    ∃ A2 out, T.transform A = .ok (A2, out) ∧ deriveFeatures A = .ok A2 ∧
      outLabels out = ((fitPipeline D2).nums.map Prod.fst ++
        oneHotNames (fitPipeline D2).cats).map ColLabel.name := by
  obtain ⟨hder, hT⟩ := fit_inv hfit
  obtain ⟨A2, hderA, hschA2⟩ := deriveFeatures_transfer hA.symm hder
  obtain ⟨bmi, ag, hshape⟩ := deriveFeatures_shape hder
  have hndD2 : nodupNames D2 := by
    rw [hshape]
    exact nodupNames_setCol (nodupNames_setCol hnd "BMI" _) "Age_Group" _
  have hnums : ∀ cs ∈ (fitPipeline D2).nums, ∃ y, scaledNumCol A2 cs = .ok y := by
    intro cs hcs
    obtain ⟨c, hcmem, hceq⟩ := List.mem_map.mp hcs
    have hcmem' : c ∈ (D2.filter fun q => q.2.isNum).map Prod.fst :=
      List.mem_of_mem_erase hcmem
    obtain ⟨vs, hvs⟩ := lookup_num_of_mem_filter hndD2 hcmem'
    have htr := lookup_isNum_eq hschA2 c
    rw [hvs] at htr
    obtain ⟨vsA, hvsA⟩ : ∃ vsA, lookupCol A2 c = some (.num vsA) := by
      cases hx : lookupCol A2 c with
      | none => rw [hx] at htr; exact absurd htr (by simp)
      | some d =>
        rw [hx] at htr
        simp only [Option.map_some', Option.some.injEq] at htr
        cases d with
        | num vsA => exact ⟨vsA, rfl⟩
        | cat _ => exact absurd htr (by simp [ColData.isNum])
    refine ⟨scaleColumn (fitScaler (numValuesIn D2 c)) vsA, ?_⟩
    rw [← hceq]
    exact scaledNumCol_ok_of_lookup _ hvsA
  have hcats : ∀ cv ∈ (fitPipeline D2).cats, ∃ y, oneHotCatCol A2 cv = .ok y := by
    intro cv hcv
    obtain ⟨c, hcmem, hceq⟩ := List.mem_map.mp hcv
    have hcmem' : c ∈ (D2.filter fun q => !q.2.isNum).map Prod.fst :=
      List.mem_of_mem_erase hcmem
    obtain ⟨vs, hvs⟩ := lookup_cat_of_mem_filter hndD2 hcmem'
    have htr := lookup_isNum_eq hschA2 c
    rw [hvs] at htr
    obtain ⟨vsA, hvsA⟩ : ∃ vsA, lookupCol A2 c = some (.cat vsA) := by
      cases hx : lookupCol A2 c with
      | none => rw [hx] at htr; exact absurd htr (by simp)
      | some d =>
        rw [hx] at htr
        simp only [Option.map_some', Option.some.injEq] at htr
        cases d with
        | cat vsA => exact ⟨vsA, rfl⟩
        | num _ => exact absurd htr (by simp [ColData.isNum])
    refine ⟨oneHotBlock (sortedCats (catValuesIn D2 c)) vsA, ?_⟩
    rw [← hceq]
    exact oneHotCatCol_ok_of_lookup _ hvsA
  obtain ⟨numBlock, hnb⟩ := exceptMapM_ok_of_all hnums
  obtain ⟨catBlocks, hcb⟩ := exceptMapM_ok_of_all hcats
  have happ : applyPipeline (fitPipeline D2) A2 = .ok (numBlock ++ catBlocks.flatten) := by
    unfold applyPipeline
    rw [hnb, hcb]
  have hlen := applyPipeline_length happ
  have hfns : ((fitPipeline D2).nums.map Prod.fst ++
      oneHotNames (fitPipeline D2).cats).length = (numBlock ++ catBlocks.flatten).length := by
    rw [List.length_append, List.length_map, oneHotNames_length, hlen]
  refine ⟨A2, _, transform_eval (by rw [hT]) (by rw [hT])
    hderA happ (by rw [hT]; exact mkOutput_some_ok hfns), hderA, ?_⟩
  exact outLabels_zip_names hfns

theorem exFit_eq : TrainPreprocessor.fit exD = .ok (exFitT, exFitD2) := rfl

theorem trainTransform_inv {tp : TrainPreprocessor}
    {data D2 : DataFrame} {out : OutTable}
    (h : tp.transform data = .ok (D2, out)) : deriveFeatures data = .ok D2 := by
  unfold TrainPreprocessor.transform at h
  split at h
  · exact absurd h (by simp)
  · split at h
    · exact absurd h (by simp)
    next df2 hder =>
      split at h
      · exact absurd h (by simp)
      next p hp =>
        split at h
        · exact absurd h (by simp)
        next cols hcols =>
          split at h
          · exact absurd h (by simp)
          next o hout =>
            simp only [Except.ok.injEq, Prod.mk.injEq] at h
            rw [hder, h.1]

theorem infTransform_inv {ip : InferencePreprocessor}
    {data D2 : DataFrame} {out : OutTable}
    (h : ip.transform data = .ok (D2, out)) : deriveFeatures data = .ok D2 := by
  unfold InferencePreprocessor.transform at h
  split at h
  · exact absurd h (by simp)
  · split at h
    · exact absurd h (by simp)
    next df2 hder =>
      split at h
      · exact absurd h (by simp)
      next p hp =>
        split at h
        · exact absurd h (by simp)
        next cols hcols =>
          split at h
          · exact absurd h (by simp)
          next o hout =>
            simp only [Except.ok.injEq, Prod.mk.injEq] at h
            rw [hder, h.1]

/-! Claim theorems. -/

/-- C3 (amended): a fresh, never-fitted preprocessor has `fitted = false`;
`transform` checks the flag before doing any work and raises `RuntimeError`
("Preprocessor must be fitted before calling transform().") on every input
table — the repository defines no `NotFittedError` class; the flag becomes
true exactly through `fit` or `load`. -/
theorem transform_before_fit_raises :
    TrainPreprocessor.new.fitted = false ∧
    (∀ (tp : TrainPreprocessor) (data : DataFrame), tp.fitted = false →
      tp.transform data = .error (.runtimeError checkFittedMsg)) ∧
    (∀ data : DataFrame,
      TrainPreprocessor.new.transform data = .error (.runtimeError checkFittedMsg)) ∧
    (∀ (D : DataFrame) (T : TrainPreprocessor) (D2 : DataFrame),
      TrainPreprocessor.fit D = .ok (T, D2) → T.fitted = true) ∧
    (∀ (artifact : Option FittedPipeline) (tp : TrainPreprocessor),
      (TrainPreprocessor.load artifact tp).fitted = true) := by
  refine ⟨rfl, ?_, ?_, ?_, ?_⟩
  · intro tp data hf
    unfold TrainPreprocessor.transform
    rw [hf]
  · intro data
    rfl
  · intro D T D2 h
    rw [(fit_inv h).2]
  · intro a tp
    rfl

theorem transform_before_fit_raises_witness :
    TrainPreprocessor.new.transform exA = .error (.runtimeError checkFittedMsg) ∧
    exFitT.fitted = true :=
  ⟨transform_before_fit_raises.2.2.1 exA,
   transform_before_fit_raises.2.2.2.1 exD exFitT exFitD2 exFit_eq⟩

/-- C3 counterexample to the claim as stated: on a fresh preprocessor and a
non-empty table, the raised error is the RuntimeError of `_check_fitted`,
not a `NotFittedError` (no such class exists in the repository). -/
theorem transform_before_fit_not_notfitted_cex :
    TrainPreprocessor.new.transform exA = .error (.runtimeError checkFittedMsg) ∧
    TrainPreprocessor.new.transform exA ≠ .error .notFittedError := by
  exact ⟨rfl, by decide⟩

/-- C6 (amended): `fit` fails with a `KeyError` naming the first missing
column among Weight, Height, Age (in the evaluation order of the derived
feature statements); the absence of the label column is not checked at all —
`fit` proceeds normally on a label-free table (as the repository's own
preprocessing test exercises), excluding the label from the column lists
only when present. -/
theorem fit_missing_required_column_raises :
    (∀ df : DataFrame, lookupCol df "Weight" = none →
      TrainPreprocessor.fit df = .error (.keyError "Weight")) ∧
    (∀ (df : DataFrame) (w : ColData), lookupCol df "Weight" = some w →
      lookupCol df "Height" = none →
      TrainPreprocessor.fit df = .error (.keyError "Height")) ∧
    (∀ (df : DataFrame) (ws hs : List ℚ),
      lookupCol df "Weight" = some (.num ws) →
      lookupCol df "Height" = some (.num hs) → lookupCol df "Age" = none →
      TrainPreprocessor.fit df = .error (.keyError "Age")) ∧
    exceptIsOk (TrainPreprocessor.fit exNoLabel) = true := by
  refine ⟨?_, ?_, ?_, rfl⟩
  · intro df h
    unfold TrainPreprocessor.fit deriveFeatures
    rw [h]
  · intro df w hw hh
    unfold TrainPreprocessor.fit deriveFeatures
    simp only [hw, hh]
  · intro df ws hs hw hh ha
    unfold TrainPreprocessor.fit deriveFeatures
    simp only [hw, hh, colPow2, colDivide]
    rw [lookupCol_setCol_ne df (by decide) _]
    simp only [ha]

theorem fit_missing_required_column_raises_witness :
    TrainPreprocessor.fit exMissingWeight = .error (.keyError "Weight") ∧
    TrainPreprocessor.fit exMissingHeight = .error (.keyError "Height") ∧
    TrainPreprocessor.fit exMissingAge = .error (.keyError "Age") :=
  ⟨fit_missing_required_column_raises.1 exMissingWeight (by decide),
   fit_missing_required_column_raises.2.1 exMissingHeight (.num [80]) (by decide)
     (by decide),
   fit_missing_required_column_raises.2.2.1 exMissingAge [80] [2] (by decide)
     (by decide) (by decide)⟩

/-- C6 counterexample to the claim as stated: fitting a table with no label
column succeeds (no `SchemaError`), and a missing Weight column raises a
builtin `KeyError`, not a `SchemaError` (no such class exists in the
repository). -/
theorem fit_schema_error_cex :
    lookupCol exNoLabel targetColumn = none ∧
    exceptIsOk (TrainPreprocessor.fit exNoLabel) = true ∧
    TrainPreprocessor.fit exNoLabel ≠ .error .schemaError ∧
    TrainPreprocessor.fit exMissingWeight = .error (.keyError "Weight") := by
  refine ⟨by decide, rfl, by decide, rfl⟩

/-- C7 (amended): `compare` on an empty trainer mapping runs an empty loop
and then applies Python's builtin `max` to the empty results dictionary,
which raises `ValueError` — the repository defines no
`EmptyTrainerSetError` class. -/
theorem compare_empty_trainers_valueerror
    (X_train X_valid : OutTable) (y_train y_valid : List ℤ) :
    ModelComparator.compare [] X_train X_valid y_train y_valid =
      .error (.valueError "max() arg is an empty sequence") := rfl

/-- C7 counterexample to the claim as stated: the empty-trainers failure is
a builtin `ValueError`, not an `EmptyTrainerSetError`. -/
theorem compare_empty_not_emptytrainerset_cex :
    ModelComparator.compare [] [] [] [] [] =
      .error (.valueError "max() arg is an empty sequence") ∧
    ModelComparator.compare [] [] [] [] [] ≠ .error .emptyTrainerSetError := by
  exact ⟨rfl, by decide⟩

/-- C10: `fit` and both `transform`s leave the caller's table mutated by
exactly the two derived-feature assignments — the BMI column (numeric) and
the Age_Group column (categorical) are added or overwritten on the table
object passed in, every other column is untouched — while the
scaled/encoded features appear only in the separately returned table. -/
theorem preprocess_mutates_input_table :
    (∀ (data : DataFrame) (T : TrainPreprocessor) (D2 : DataFrame),
      TrainPreprocessor.fit data = .ok (T, D2) → deriveFeatures data = .ok D2) ∧
    (∀ (tp : TrainPreprocessor) (data D2 : DataFrame) (out : OutTable),
      tp.transform data = .ok (D2, out) → deriveFeatures data = .ok D2) ∧
    (∀ (ip : InferencePreprocessor) (data D2 : DataFrame) (out : OutTable),
      ip.transform data = .ok (D2, out) → deriveFeatures data = .ok D2) ∧
    (∀ (data D2 : DataFrame), deriveFeatures data = .ok D2 →
      (∀ c, c ≠ "BMI" → c ≠ "Age_Group" → lookupCol D2 c = lookupCol data c) ∧
      (∃ vs, lookupCol D2 "BMI" = some (.num vs)) ∧
      (∃ vs, lookupCol D2 "Age_Group" = some (.cat vs))) := by
  refine ⟨?_, ?_, ?_, ?_⟩
  · intro data T D2 h
    exact (fit_inv h).1
  · intro tp data D2 out h
    exact trainTransform_inv h
  · intro ip data D2 out h
    exact infTransform_inv h
  · intro data D2 h
    obtain ⟨bmi, ag, hshape⟩ := deriveFeatures_shape h
    subst hshape
    refine ⟨?_, ?_, ?_⟩
    · intro c hB hA
      rw [lookupCol_setCol_ne _ (Ne.symm hA) _, lookupCol_setCol_ne _ (Ne.symm hB) _]
    · exact ⟨bmi, by rw [lookupCol_setCol_ne _ (by decide) _, lookupCol_setCol_self]⟩
    · exact ⟨ag, lookupCol_setCol_self _ _ _⟩

theorem preprocess_mutates_input_table_witness :
    deriveFeatures exD = .ok exFitD2 ∧
    lookupCol exFitD2 "Gender" = lookupCol exD "Gender" ∧
    (∃ vs, lookupCol exFitD2 "BMI" = some (.num vs)) ∧
    (∃ vs, lookupCol exFitD2 "Age_Group" = some (.cat vs)) ∧
    exFitD2 ≠ exD := by
  have h1 := preprocess_mutates_input_table.1 exD exFitT exFitD2 exFit_eq
  have h4 := preprocess_mutates_input_table.2.2.2 exD exFitD2 h1
  exact ⟨h1, h4.1 "Gender" (by decide) (by decide), h4.2.1, h4.2.2, by decide⟩

/-- C1: for a fitted preprocessor (fitted via `fit` on a training table `D`
with distinct column names), transforming any two tables `A`, `B` with the
same column schema as `D` succeeds and yields tables with the same column
labels — in particular the same column count and order — and that label
list is exactly the stored numeric columns in fit-time order followed by
the one-hot feature names in fit-time category order, independent of the
row counts of `A` and `B`. -/
theorem fit_transform_column_order {D : DataFrame} {T : TrainPreprocessor}
    {D2 : DataFrame} (hfit : TrainPreprocessor.fit D = .ok (T, D2))
    (hnd : nodupNames D) {A B : DataFrame}
    (hA : schema A = schema D) (hB : schema B = schema D) :
    ∃ A2 outA B2 outB,
      T.transform A = .ok (A2, outA) ∧ T.transform B = .ok (B2, outB) ∧
      outLabels outA = outLabels outB ∧
      (outLabels outA).length = (outLabels outB).length ∧
      outLabels outA = ((fitPipeline D2).nums.map Prod.fst ++
        oneHotNames (fitPipeline D2).cats).map ColLabel.name := by
  obtain ⟨A2, outA, htA, _, hlA⟩ := transform_ok_of_fit hfit hnd hA
  obtain ⟨B2, outB, htB, _, hlB⟩ := transform_ok_of_fit hfit hnd hB
  exact ⟨A2, outA, B2, outB, htA, htB, by rw [hlA, hlB], by rw [hlA, hlB], hlA⟩

theorem fit_transform_column_order_witness :
    nodupNames exD ∧ schema exA = schema exD ∧ schema exB = schema exD ∧
    ∃ A2 outA B2 outB,
      exFitT.transform exA = .ok (A2, outA) ∧
      exFitT.transform exB = .ok (B2, outB) ∧
      outLabels outA = outLabels outB ∧
      (outLabels outA).length = (outLabels outB).length ∧
      outLabels outA = ((fitPipeline exFitD2).nums.map Prod.fst ++
        oneHotNames (fitPipeline exFitD2).cats).map ColLabel.name :=
  ⟨by decide, by decide, by decide,
   fit_transform_column_order exFit_eq (by decide) (by decide) (by decide)⟩

/-- C4: for a fitted preprocessor and an input table of the fit-time
schema containing, in a raw categorical column `c`, a value `v` never
observed at fit time (not in the stored vocabulary), `transform` does not
raise — it succeeds on the whole table — and row `i` of the one-hot block
produced for column `c` is the reserved all-zero unseen-category vector,
while all columns are encoded by the one normal code path. -/
theorem transform_unseen_category_all_zero {D : DataFrame}
    {T : TrainPreprocessor} {D2 : DataFrame}
    (hfit : TrainPreprocessor.fit D = .ok (T, D2)) (hnd : nodupNames D)
    (A : DataFrame) (hA : schema A = schema D) (c : String)
    (vocab : List (Option String)) (_hc : (c, vocab) ∈ (fitPipeline D2).cats)
    (hBMI : c ≠ "BMI") (hAG : c ≠ "Age_Group")
    (vs : List (Option String)) (hvs : lookupCol A c = some (.cat vs))
    (i : ℕ) (v : Option String) (hv : vs[i]? = some v) (hunseen : v ∉ vocab) :
    ∃ A2 out, T.transform A = .ok (A2, out) ∧
      lookupCol A2 c = some (.cat vs) ∧
      ∀ col ∈ oneHotBlock vocab vs, col[i]? = some 0 := by
  obtain ⟨A2, out, htA, hderA, _⟩ := transform_ok_of_fit hfit hnd hA
  refine ⟨A2, out, htA, ?_, ?_⟩
  · obtain ⟨bmi, ag, hshape⟩ := deriveFeatures_shape hderA
    rw [hshape, lookupCol_setCol_ne _ (Ne.symm hAG) _,
      lookupCol_setCol_ne _ (Ne.symm hBMI) _]
    exact hvs
  · intro col hcol
    obtain ⟨cat, hcat, hcoleq⟩ := List.mem_map.mp hcol
    have hne : v ≠ cat := fun h => hunseen (h ▸ hcat)
    rw [← hcoleq, List.getElem?_map, hv]
    simp [hne]

theorem transform_unseen_category_all_zero_witness :
    ("Gender", [some "Male"]) ∈ (fitPipeline exFitD2).cats ∧
    lookupCol exA "Gender" = some (.cat [some "Other", some "Male"]) ∧
    (some "Other" : Option String) ∉ [some "Male"] ∧
    ∃ A2 out, exFitT.transform exA = .ok (A2, out) ∧
      lookupCol A2 "Gender" = some (.cat [some "Other", some "Male"]) ∧
      ∀ col ∈ oneHotBlock [some "Male"] [some "Other", some "Male"],
        col[0]? = some 0 :=
  ⟨by decide, by decide, by decide,
   transform_unseen_category_all_zero exFit_eq (by decide) exA (by decide)
     "Gender" [some "Male"] (by decide) (by decide) (by decide)
     [some "Other", some "Male"] (by decide) 0 (some "Other") (by decide)
     (by decide)⟩

/-- C2 (amended): for a preprocessor fitted on `D`, saving and loading (the
artifact is the pipeline object) yields a preprocessor whose `transform`
produces, on every input table, the same caller-table mutation and the same
output column values in the same order — the scaling parameters, the
category vocabularies and the column selection orders all live in the saved
pipeline — but the output column *names* are not restored, because
`feature_names` is not part of the saved artifact. -/
theorem save_load_transform_values {D : DataFrame} {T : TrainPreprocessor}
    {D2 : DataFrame} (hfit : TrainPreprocessor.fit D = .ok (T, D2))
    (X : DataFrame) :
    stripVals ((TrainPreprocessor.load T.save TrainPreprocessor.new).transform X) =
      stripVals (T.transform X) := by
  obtain ⟨hder, hT⟩ := fit_inv hfit
  subst hT
  unfold TrainPreprocessor.save TrainPreprocessor.load TrainPreprocessor.new
  unfold TrainPreprocessor.transform
  simp only
  cases hd : deriveFeatures X with
  | error e => simp [stripVals]
  | ok df2 =>
    simp only
    cases happ : applyPipeline (fitPipeline D2) df2 with
    | error e => simp [stripVals]
    | ok cols =>
      simp only
      have hlen : ((fitPipeline D2).nums.map Prod.fst ++
          oneHotNames (fitPipeline D2).cats).length = cols.length := by
        rw [List.length_append, List.length_map, oneHotNames_length,
          applyPipeline_length happ]
      rw [mkOutput_some_ok hlen]
      simp only [mkOutput]
      simp only [stripVals, Except.map, Option.map]
      have h1 : (((List.range cols.length).map ColLabel.index).zip cols).map Prod.snd
          = cols := by
        apply List.map_snd_zip
        simp
      have h2 : ((((fitPipeline D2).nums.map Prod.fst ++
          oneHotNames (fitPipeline D2).cats).map ColLabel.name).zip cols).map Prod.snd
          = cols := by
        apply List.map_snd_zip
        rw [← hlen]
        simp
      rw [h1, h2]

theorem save_load_transform_values_witness :
    stripVals ((TrainPreprocessor.load exFitT.save TrainPreprocessor.new).transform exD) =
      stripVals (exFitT.transform exD) :=
  save_load_transform_values exFit_eq exD

/-- C2 counterexample to the claim as stated: after save/load the
transformed table's column labels are the positional RangeIndex labels, not
the fitted feature names, so `T'.transform(D)` does not equal
`T.transform(D)` column-for-column — `feature_names` is not serialized. -/
theorem save_load_loses_column_names_cex :
    Except.map (fun r => outLabels r.2)
      ((TrainPreprocessor.load exFitT.save TrainPreprocessor.new).transform exD) =
      .ok ((List.range 6).map ColLabel.index) ∧
    Except.map (fun r => outLabels r.2) (exFitT.transform exD) =
      .ok (["Age", "Height", "Weight", "BMI", "Gender_Male",
        "Age_Group_Young"].map ColLabel.name) ∧
    ((List.range 6).map ColLabel.index : List ColLabel) ≠
      ["Age", "Height", "Weight", "BMI", "Gender_Male",
        "Age_Group_Young"].map ColLabel.name := by
  refine ⟨by decide, by decide, by decide⟩

theorem pyMax_fold_spec (f : α → ℚ) : ∀ (xs : List α) (b : α),
    ∃ pre best post,
      b :: xs = pre ++ best :: post ∧
      xs.foldl (fun u y => if f u < f y then y else u) b = best ∧
      (∀ y ∈ pre, f y < f best) ∧ (∀ y ∈ b :: xs, f y ≤ f best) := by
  intro xs
  induction xs with
  | nil =>
    intro b
    refine ⟨[], b, [], rfl, rfl, by simp, ?_⟩
    intro y hy
    rcases List.mem_cons.mp hy with h | h
    · exact le_of_eq (by rw [h])
    · exact absurd h (List.not_mem_nil y)
  | cons z t ih =>
    intro b
    by_cases hzb : f b < f z
    · obtain ⟨pre, best, post, hsplit, hfold, hpre, hall⟩ := ih z
      have hzbest : f z ≤ f best := hall z (List.mem_cons_self z t)
      refine ⟨b :: pre, best, post, ?_, ?_, ?_, ?_⟩
      · rw [List.cons_append, ← hsplit]
      · simp only [List.foldl_cons, if_pos hzb]
        exact hfold
      · intro y hy
        rcases List.mem_cons.mp hy with h | h
        · rw [h]
          exact lt_of_lt_of_le hzb hzbest
        · exact hpre y h
      · intro y hy
        rcases List.mem_cons.mp hy with h | h
        · rw [h]
          exact le_of_lt (lt_of_lt_of_le hzb hzbest)
        · exact hall y h
    · obtain ⟨pre, best, post, hsplit, hfold, hpre, hall⟩ := ih b
      cases pre with
      | nil =>
        simp only [List.nil_append] at hsplit
        injection hsplit with hb ht
        subst ht
        subst hb
        refine ⟨[], b, z :: t, rfl, ?_, by simp, ?_⟩
        · simp only [List.foldl_cons, if_neg hzb]
          exact hfold
        · intro y hy
          rcases List.mem_cons.mp hy with h | h
          · exact le_of_eq (by rw [h])
          · rcases List.mem_cons.mp h with h' | h'
            · rw [h']
              exact le_of_not_lt hzb
            · exact hall y (List.mem_cons_of_mem b h')
      | cons p pre' =>
        simp only [List.cons_append] at hsplit
        injection hsplit with hb ht
        subst hb
        have hbbest : f b < f best := hpre b (List.mem_cons_self b pre')
        refine ⟨b :: z :: pre', best, post, ?_, ?_, ?_, ?_⟩
        · rw [ht]
          simp [List.cons_append]
        · simp only [List.foldl_cons, if_neg hzb]
          exact hfold
        · intro y hy
          rcases List.mem_cons.mp hy with h | h
          · rw [h]
            exact hbbest
          · rcases List.mem_cons.mp h with h' | h'
            · rw [h']
              exact lt_of_le_of_lt (le_of_not_lt hzb) hbbest
            · exact hpre y (List.mem_cons_of_mem b h')
        · intro y hy
          rcases List.mem_cons.mp hy with h | h
          · rw [h]
            exact le_of_lt hbbest
          · rcases List.mem_cons.mp h with h' | h'
            · rw [h']
              exact le_trans (le_of_not_lt hzb) (le_of_lt hbbest)
            · exact hall y (List.mem_cons_of_mem b h')

theorem pyMax_spec (f : α → ℚ) {l : List α} (h : l ≠ []) :
    ∃ pre best post, l = pre ++ best :: post ∧ pyMax f l = some best ∧
      (∀ y ∈ pre, f y < f best) ∧ ∀ y ∈ l, f y ≤ f best := by
  cases l with
  | nil => exact absurd rfl h
  | cons b xs =>
    obtain ⟨pre, best, post, hs, hf, hp, ha⟩ := pyMax_fold_spec f xs b
    exact ⟨pre, best, post, hs, by simp [pyMax, hf], hp, ha⟩

/-- C5: `compare` returns the entry of the results mapping with maximal
weighted F1, and among equals the one encountered first in iteration order
over the input mapping (Python's `max` keeps the current best and replaces
it only on a strictly greater key); in particular, for trainers A, B, C in
that order with F1 scores 0.80, 0.90, 0.90 on the validation labels,
`compare` selects B, not C. -/
theorem compare_selects_first_max_f1 :
    (∀ (trainers : List (String × Trainer)) (X_train X_valid : OutTable)
       (y_train y_valid : List ℤ), trainers ≠ [] →
      ∃ pre best post,
        compareResults trainers X_train X_valid y_train y_valid =
          pre ++ best :: post ∧
        ModelComparator.compare trainers X_train X_valid y_train y_valid =
          .ok best ∧
        (∀ r ∈ pre, lookupMetric r.2 "f1_score" < lookupMetric best.2 "f1_score") ∧
        (∀ r ∈ compareResults trainers X_train X_valid y_train y_valid,
          lookupMetric r.2 "f1_score" ≤ lookupMetric best.2 "f1_score")) ∧
    lookupMetric (ModelEvaluator.evaluate yValid10 predsA10) "f1_score" = 4/5 ∧
    lookupMetric (ModelEvaluator.evaluate yValid10 predsB10) "f1_score" = 9/10 ∧
    (ModelComparator.compare abcTrainers [] [] [] yValid10).toOption.map Prod.fst =
      some "B" := by
  have hfa : lookupMetric (ModelEvaluator.evaluate yValid10 predsA10) "f1_score" = 4/5 := by
    simp [ModelEvaluator.evaluate, lookupMetric, weightedAvg, f1Of, precisionOf,
      recallOf, safeDiv, countTP, supportOf, unionLabels, insertLabel, listSum,
      predsA10, yValid10, List.countP, List.countP.go]
    all_goals norm_num
  have hfb : lookupMetric (ModelEvaluator.evaluate yValid10 predsB10) "f1_score" = 9/10 := by
    simp [ModelEvaluator.evaluate, lookupMetric, weightedAvg, f1Of, precisionOf,
      recallOf, safeDiv, countTP, supportOf, unionLabels, insertLabel, listSum,
      predsB10, yValid10, List.countP, List.countP.go]
    all_goals norm_num
  refine ⟨?_, hfa, hfb, ?_⟩
  · intro trainers Xt Xv yt yv hne
    have hres : compareResults trainers Xt Xv yt yv ≠ [] := by
      unfold compareResults
      simpa using hne
    obtain ⟨pre, best, post, hs, hm, hp, ha⟩ :=
      pyMax_spec (fun r => lookupMetric r.2 "f1_score") hres
    refine ⟨pre, best, post, hs, ?_, hp, ha⟩
    unfold ModelComparator.compare
    rw [hm]
  · have h1 : ((4:ℚ)/5 < 9/10) = True := by norm_num
    have h2 : ((9:ℚ)/10 < 9/10) = False := by norm_num
    simp [ModelComparator.compare, compareResults, abcTrainers, pyMax, hfa, hfb,
      h1, h2, Except.toOption]

theorem compare_selects_first_max_f1_witness :
    abcTrainers ≠ [] ∧
    ∃ pre best post,
      compareResults abcTrainers [] [] [] yValid10 = pre ++ best :: post ∧
      ModelComparator.compare abcTrainers [] [] [] yValid10 = .ok best ∧
      (∀ r ∈ pre, lookupMetric r.2 "f1_score" < lookupMetric best.2 "f1_score") ∧
      (∀ r ∈ compareResults abcTrainers [] [] [] yValid10,
        lookupMetric r.2 "f1_score" ≤ lookupMetric best.2 "f1_score") :=
  ⟨by unfold abcTrainers; exact List.cons_ne_nil _ _,
   compare_selects_first_max_f1.1 abcTrainers [] [] [] yValid10
     (by unfold abcTrainers; exact List.cons_ne_nil _ _)⟩

/-- C9 (amended): `evaluate` returns the dictionary of exactly the four
scalar metrics — the confusion matrix is computed for the log line but is
not part of the returned value; on `y_true = [0,1,1]`, `y_pred = [0,1,0]`
the returned accuracy is 2/3 and the computed confusion matrix is the 2-by-2
matrix [[1,0],[1,1]], whose only nonzero off-diagonal entry is the single
row with true label 1 predicted as 0. -/
theorem evaluate_metrics_and_confusion :
    lookupMetric (ModelEvaluator.evaluate [0, 1, 1] [0, 1, 0]) "accuracy" = 2/3 ∧
    (∀ y_true y_pred : List ℤ, (ModelEvaluator.evaluate y_true y_pred).map Prod.fst =
      ["accuracy", "precision", "recall", "f1_score"]) ∧
    confusionMatrix [0, 1, 1] [0, 1, 0] = [[1, 0], [1, 1]] ∧
    (confusionMatrix [0, 1, 1] [0, 1, 0]).length = 2 := by
  refine ⟨?_, fun y p => rfl, by decide, by decide⟩
  simp [ModelEvaluator.evaluate, lookupMetric, safeDiv, List.countP, List.countP.go]

/-- C9 counterexample to the claim as stated: the value `evaluate` returns
has exactly the four scalar keys — it contains no confusion matrix. -/
theorem evaluate_returns_only_scalars_cex :
    (ModelEvaluator.evaluate [0, 1, 1] [0, 1, 0]).map Prod.fst =
      ["accuracy", "precision", "recall", "f1_score"] := rfl

/-- C8 (amended): with the end-to-end table's heights read in meters (1.70,
1.60) — the unit the dataset and the claimed outputs presuppose — fitting
mutates the table with a BMI column equal to [70/1.70^2, 95/1.60^2], which
is [24.22, 37.11] within 0.01, and an Age_Group column mapping age 25 to
"Young" and age 40 to "Adult". -/
theorem fit_bmi_age_group_values :
    Except.map (fun r => (lookupCol r.2 "BMI", lookupCol r.2 "Age_Group"))
      (TrainPreprocessor.fit table8m) =
      .ok (some (.num [7000/289, 2375/64]),
        some (.cat [some "Young", some "Adult"])) ∧
    2422/100 - 1/100 ≤ (7000:ℚ)/289 ∧ (7000:ℚ)/289 ≤ 2422/100 + 1/100 ∧
    3711/100 - 1/100 ≤ (2375:ℚ)/64 ∧ (2375:ℚ)/64 ≤ 3711/100 + 1/100 := by
  refine ⟨?_, by norm_num, by norm_num, by norm_num, by norm_num⟩
  simp [TrainPreprocessor.fit, deriveFeatures, lookupCol, setCol, colPow2,
    colDivide, colCut, cutAge, table8m, Except.map]
  all_goals norm_num

/-- C8 counterexample to the claim as stated: on the claim's own table,
whose Height values are 170 and 160, the code computes
BMI = Weight / Height^2 = [70/28900, 95/25600], and 70/28900 is not within
0.01 of 24.22 (the code performs no unit conversion). -/
theorem fit_bmi_centimeters_cex :
    Except.map (fun r => lookupCol r.2 "BMI") (TrainPreprocessor.fit table8) =
      .ok (some (.num [7/2890, 19/5120])) ∧
    ¬(2422/100 - 1/100 ≤ (7:ℚ)/2890 ∧ (7:ℚ)/2890 ≤ 2422/100 + 1/100) := by
  refine ⟨?_, by norm_num⟩
  simp [TrainPreprocessor.fit, deriveFeatures, lookupCol, setCol, colPow2,
    colDivide, colCut, cutAge, table8, Except.map]
  all_goals norm_num
